import Mathlib

/-!
Verification of the eol-rebaser migration rule engine.

This development shallowly embeds the rule engine of the repository:
`migrator.py` (rule matching, effective-date gating, target resolution,
migration orchestration), `config.py` (rule-set validation) and
`bootc.py` (image-reference validation, switch collaborator).  Python's
`re` module is modelled by a small executable regular-expression engine
(the dialect subset actually exercised by the configuration language:
literals, `.`, `^`, `$`, groups, `|`, `?`, `*`, `+`, escapes, and
numbered back-references in substitution templates).  `datetime.strptime`
with format `%Y-%m-%d` and datetime comparison are modelled executably.
-/

namespace EolRebaser

/-! ### String utilities (Python `in`, `str.strip`) -/

/-- Membership of a single character in a string (Python `c in s` for a
one-character needle). -/
def strHasChar (s : String) (c : Char) : Bool :=
  s.toList.contains c

/-- Does the list start with the given sequence? -/
def listStartsWith : List Char → List Char → Bool
  | _, [] => true
  | [], _ :: _ => false
  | a :: as, b :: bs => a = b && listStartsWith as bs

/-- Does the list contain the given contiguous subsequence
(Python `needle in hay` for multi-character needles)? -/
def listHasSeq : List Char → List Char → Bool
  | [], n => n.isEmpty
  | a :: t, n => listStartsWith (a :: t) n || listHasSeq t n

/-- Substring test on strings. -/
def strHasSeq (hay needle : String) : Bool :=
  listHasSeq hay.toList needle.toList

/-- The whitespace characters stripped by Python's `str.strip()`
(ASCII subset, which covers the image-reference domain). -/
def pyIsSpace (c : Char) : Bool :=
  c = ' ' || c = '\t' || c = '\n' || c = '\r' || c = '\x0b' || c = '\x0c'

/-- Python `str.strip()`: remove leading and trailing whitespace. -/
def pyStrip (s : String) : String :=
  String.mk (((s.toList.dropWhile pyIsSpace).reverse.dropWhile pyIsSpace).reverse)

/-! ### Dates (`datetime.strptime(s, "%Y-%m-%d")` and datetime order) -/

/-- A calendar date as produced by `datetime.strptime`. -/
structure PyDate where
  year : Nat
  month : Nat
  day : Nat
deriving DecidableEq, Repr

/-- A point in time: a date plus seconds within the day.  `strptime`
with a date-only format yields midnight (`sec = 0`). -/
structure PyDateTime where
  date : PyDate
  sec : Nat
deriving DecidableEq, Repr

/-- Date order (lexicographic year, month, day), as Python compares
`datetime.date` components. -/
def pyDateLt (a b : PyDate) : Bool :=
  if a.year ≠ b.year then a.year < b.year
  else if a.month ≠ b.month then a.month < b.month
  else a.day < b.day

/-- Datetime order: date first, then time of day. -/
def pyDtLt (a b : PyDateTime) : Bool :=
  if a.date ≠ b.date then pyDateLt a.date b.date
  else a.sec < b.sec

/-- Gregorian leap year. -/
def isLeap (y : Nat) : Bool :=
  y % 4 = 0 && (y % 100 ≠ 0 || y % 400 = 0)

/-- Days in a month, as validated by `datetime`'s constructor. -/
def daysInMonth (y m : Nat) : Nat :=
  if m = 2 then (if isLeap y then 29 else 28)
  else if m = 4 || m = 6 || m = 9 || m = 11 then 30
  else 31

/-- Decimal digit value of a character, if it is a digit. -/
def digit? (c : Char) : Option Nat :=
  if c.isDigit then some (c.toNat - 48) else none

/-- Parse one or two digits as CPython's `_strptime` directive regexes do
(`%m` is `1[0-2]|0[1-9]|[1-9]`, `%d` is `3[01]|[12]\d|0[1-9]|[1-9]`):
greedily take two digits when their value is in `1..hi`, otherwise fall
back to a single non-zero digit. -/
def parse2or1 (hi : Nat) : List Char → Option (Nat × List Char)
  | c1 :: c2 :: rest =>
    match digit? c1, digit? c2 with
    | some d1, some d2 =>
      let v := d1 * 10 + d2
      if 1 ≤ v ∧ v ≤ hi then some (v, rest)
      else if 1 ≤ d1 then some (d1, c2 :: rest)
      else none
    | some d1, none => if 1 ≤ d1 then some (d1, c2 :: rest) else none
    | none, _ => none
  | [c1] =>
    match digit? c1 with
    | some d1 => if 1 ≤ d1 then some (d1, []) else none
    | none => none
  | [] => none

/-- `datetime.strptime(s, "%Y-%m-%d")`: four-digit year, dash,
one-or-two-digit month, dash, one-or-two-digit day, nothing left over;
then the `datetime` constructor validates the calendar (year at least
`MINYEAR = 1`, day within the month). -/
def parseDate (s : String) : Option PyDate :=
  match s.toList with
  | a :: b :: c :: d :: '-' :: rest =>
    match digit? a, digit? b, digit? c, digit? d with
    | some w, some x, some y2, some z =>
      let year := ((w * 10 + x) * 10 + y2) * 10 + z
      match parse2or1 12 rest with
      | some (mo, rest2) =>
        match rest2 with
        | '-' :: rest3 =>
          match parse2or1 31 rest3 with
          | some (dy, rest4) =>
            if rest4 = [] ∧ 1 ≤ year ∧ dy ≤ daysInMonth year mo then
              some ⟨year, mo, dy⟩
            else none
          | none => none
        | _ => none
      | none => none
    | _, _, _, _ => none
  | _ => none

/-! ### Regular expressions (model of Python `re` on the configuration
dialect) -/

/-- Abstract syntax of the supported regex dialect. -/
inductive Rx where
  | eps : Rx
  | lit : Char → Rx
  | dot : Rx
  | bol : Rx
  | eol : Rx
  | cat : Rx → Rx → Rx
  | alt : Rx → Rx → Rx
  | star : Bool → Rx → Rx
  | grp : Nat → Rx → Rx
deriving DecidableEq, Repr

/-- The nonterminal being parsed: alternation, concatenation, quantified
atom, or atom. -/
inductive PMode where
  | palt : PMode
  | pcat : PMode
  | prep : PMode
  | patom : PMode
deriving DecidableEq, Repr

/-- Recursive-descent pattern parser.  `mode` selects the nonterminal
(`palt` ≥ `pcat` ≥ `prep` ≥ `patom`), `g` is the next capture-group
number; fuel bounds recursion depth (the top-level call supplies more
than enough).  Returns the parsed regex, the unconsumed input, and the
updated group counter. -/
def parseRx (fuel : Nat) (mode : PMode) (s : List Char) (g : Nat) :
    Except String (Rx × List Char × Nat) :=
  match fuel with
  | 0 => .error "pattern too deeply nested"
  | fuel + 1 =>
    match mode with
    | .palt => do
      let (r1, s1, g1) ← parseRx fuel .pcat s g
      match s1 with
      | '|' :: rest => do
        let (r2, s2, g2) ← parseRx fuel .palt rest g1
        pure (.alt r1 r2, s2, g2)
      | _ => pure (r1, s1, g1)
    | .pcat =>
      match s with
      | [] => pure (.eps, [], g)
      | ')' :: _ => pure (.eps, s, g)
      | '|' :: _ => pure (.eps, s, g)
      | _ => do
        let (r1, s1, g1) ← parseRx fuel .prep s g
        let (r2, s2, g2) ← parseRx fuel .pcat s1 g1
        pure (.cat r1 r2, s2, g2)
    | .prep => do
      let (r, s1, g1) ← parseRx fuel .patom s g
      match s1 with
      | '?' :: '?' :: s2 => pure (.alt .eps r, s2, g1)
      | '?' :: s2 => pure (.alt r .eps, s2, g1)
      | '*' :: '?' :: s2 => pure (.star false r, s2, g1)
      | '*' :: s2 => pure (.star true r, s2, g1)
      | '+' :: '?' :: s2 => pure (.cat r (.star false r), s2, g1)
      | '+' :: s2 => pure (.cat r (.star true r), s2, g1)
      | _ => pure (r, s1, g1)
    | .patom =>
      match s with
      | [] => .error "unexpected end of pattern"
      | '(' :: '?' :: _ => .error "unsupported group extension"
      | '(' :: rest => do
        let (r, s1, g1) ← parseRx fuel .palt rest (g + 1)
        match s1 with
        | ')' :: s2 => pure (.grp g r, s2, g1)
        | _ => .error "missing ), unterminated subpattern"
      | '.' :: rest => pure (.dot, rest, g)
      | '^' :: rest => pure (.bol, rest, g)
      | '$' :: rest => pure (.eol, rest, g)
      | '*' :: _ => .error "nothing to repeat"
      | '+' :: _ => .error "nothing to repeat"
      | '?' :: _ => .error "nothing to repeat"
      | ')' :: _ => .error "unbalanced parenthesis"
      | '[' :: _ => .error "unsupported character class"
      | '\\' :: rest =>
        match rest with
        | [] => .error "bad escape, end of pattern"
        | c :: rest2 =>
          if c.isDigit then .error "unsupported backreference in pattern"
          else if c = 'n' then pure (.lit '\n', rest2, g)
          else if c = 't' then pure (.lit '\t', rest2, g)
          else if c = 'r' then pure (.lit '\r', rest2, g)
          else if c.isAlpha then .error "unsupported escape in pattern"
          else pure (.lit c, rest2, g)
      | c :: rest => pure (.lit c, rest, g)

/-- `re.compile`: parse a whole pattern; also yields the number of
capture groups. -/
def reCompile (p : String) : Except String (Rx × Nat) := do
  let cs := p.toList
  let (r, rest, g) ← parseRx (4 * cs.length + 16) .palt cs 1
  match rest with
  | [] => pure (r, g - 1)
  | _ => .error "unbalanced parenthesis"

/-- Capture map: group number paired with captured text, most recent
first. -/
def Caps := List (Nat × List Char)

/-- Record a capture (a later capture of the same group shadows an
earlier one, as in Python). -/
def capSet (cp : Caps) (n : Nat) (v : List Char) : Caps := (n, v) :: cp

/-- Text captured by a group, if the group participated in the match. -/
def capGet (cp : Caps) (n : Nat) : Option (List Char) :=
  ((cp : List (Nat × List Char)).find? (fun x => x.1 = n)).map (fun x => x.2)

/-- Candidate continuations of an iterated body, most preferred first.
`m` matches one body occurrence; iteration only continues on progress,
matching the backtracking engine's empty-repeat guard. -/
def starLoop (m : Nat → Caps → List (Nat × Caps)) (greedy : Bool) :
    Nat → Nat → Caps → List (Nat × Caps)
  | 0, i, cp => [(i, cp)]
  | fuel + 1, i, cp =>
    let more := (m i cp).flatMap
      (fun r => if i < r.1 then starLoop m greedy fuel r.1 r.2 else [])
    if greedy then more ++ [(i, cp)] else (i, cp) :: more

/-- All ways the regex can match starting at position `i` of `s`, in the
backtracking engine's preference order (the head is the match Python
reports).  Each result is the end position and the captures. -/
def rxMatch (s : List Char) : Rx → Nat → Caps → List (Nat × Caps)
  | .eps, i, cp => [(i, cp)]
  | .lit c, i, cp =>
    match s.drop i with
    | d :: _ => if d = c then [(i + 1, cp)] else []
    | [] => []
  | .dot, i, cp =>
    match s.drop i with
    | d :: _ => if d = '\n' then [] else [(i + 1, cp)]
    | [] => []
  | .bol, i, cp => if i = 0 then [(i, cp)] else []
  | .eol, i, cp => if i = s.length || s.drop i = ['\n'] then [(i, cp)] else []
  | .cat a b, i, cp => (rxMatch s a i cp).flatMap (fun r => rxMatch s b r.1 r.2)
  | .alt a b, i, cp => rxMatch s a i cp ++ rxMatch s b i cp
  | .grp n a, i, cp =>
    (rxMatch s a i cp).map (fun r => (r.1, capSet r.2 n ((s.drop i).take (r.1 - i))))
  | .star gr a, i, cp =>
    starLoop (fun j c => rxMatch s a j c) gr (s.length + 1 - i) i cp

/-- `re.match(pattern, s)` viewed as a Boolean: does the pattern match
at the start of `s` (the rest of the string need not be consumed)?  An
invalid pattern is an error, as `re.match` raises `re.error`. -/
def reMatchB (p s : String) : Except String Bool :=
  (reCompile p).map (fun x => !(rxMatch s.toList x.1 0 []).isEmpty)

/-- One piece of a parsed substitution template. -/
inductive Titem where
  | lit : Char → Titem
  | grp : Nat → Titem
deriving DecidableEq, Repr

/-- Parse a substitution template against a pattern with `ng` capture
groups, as CPython's template parser does before scanning: `\N` (one or
two digits) is a group reference and must not exceed `ng`; `\0` starts
an octal escape; `\n`/`\t`/`\r`/`\\` are the usual escapes; an
unrecognised ASCII-letter escape is an error; a backslash before any
other character is kept literally. -/
def parseTpl (ng : Nat) (fuel : Nat) (s : List Char) :
    Except String (List Titem) :=
  match fuel with
  | 0 => .error "template too long"
  | fuel + 1 =>
    match s with
    | [] => pure []
    | '\\' :: rest =>
      match rest with
      | [] => .error "bad escape, end of template"
      | c :: rest2 =>
        if c = '0' then
          match rest2 with
          | c2 :: c3 :: rest3 =>
            if '0' ≤ c2 ∧ c2 ≤ '7' ∧ '0' ≤ c3 ∧ c3 ≤ '7' then
              (fun l => Titem.lit (Char.ofNat ((c2.toNat - 48) * 8 + (c3.toNat - 48))) :: l)
                <$> parseTpl ng fuel rest3
            else if '0' ≤ c2 ∧ c2 ≤ '7' then
              (fun l => Titem.lit (Char.ofNat (c2.toNat - 48)) :: l)
                <$> parseTpl ng fuel (c3 :: rest3)
            else
              (fun l => Titem.lit (Char.ofNat 0) :: l) <$> parseTpl ng fuel rest2
          | [c2] =>
            if '0' ≤ c2 ∧ c2 ≤ '7' then
              (fun l => [Titem.lit (Char.ofNat (c2.toNat - 48))] ++ l) <$> parseTpl ng fuel []
            else
              (fun l => Titem.lit (Char.ofNat 0) :: l) <$> parseTpl ng fuel rest2
          | [] => (fun l => Titem.lit (Char.ofNat 0) :: l) <$> parseTpl ng fuel []
        else if c.isDigit then
          match rest2 with
          | c2 :: rest3 =>
            if c2.isDigit then
              let n := (c.toNat - 48) * 10 + (c2.toNat - 48)
              if n = 0 ∨ ng < n then .error "invalid group reference"
              else (fun l => Titem.grp n :: l) <$> parseTpl ng fuel rest3
            else
              let n := c.toNat - 48
              if n = 0 ∨ ng < n then .error "invalid group reference"
              else (fun l => Titem.grp n :: l) <$> parseTpl ng fuel rest2
          | [] =>
            let n := c.toNat - 48
            if n = 0 ∨ ng < n then .error "invalid group reference"
            else pure [Titem.grp n]
        else if c = 'n' then (fun l => Titem.lit '\n' :: l) <$> parseTpl ng fuel rest2
        else if c = 't' then (fun l => Titem.lit '\t' :: l) <$> parseTpl ng fuel rest2
        else if c = 'r' then (fun l => Titem.lit '\r' :: l) <$> parseTpl ng fuel rest2
        else if c = '\\' then (fun l => Titem.lit '\\' :: l) <$> parseTpl ng fuel rest2
        else if c.isAlpha then .error "bad escape in template"
        else (fun l => Titem.lit '\\' :: Titem.lit c :: l) <$> parseTpl ng fuel rest2
    | c :: rest => (fun l => Titem.lit c :: l) <$> parseTpl ng fuel rest

/-- Expand a parsed template with the captures of a match; a group that
did not participate expands to the empty string (Python 3.5+). -/
def tplExpand (tpl : List Titem) (cp : Caps) : List Char :=
  tpl.flatMap (fun t =>
    match t with
    | .lit c => [c]
    | .grp n => (capGet cp n).getD [])

/-- Leftmost match of the regex at a position at or after `p`:
start position, end position and captures. -/
def firstMatchFrom (s : List Char) (r : Rx) (fuel : Nat) (p : Nat) :
    Option (Nat × Nat × Caps) :=
  match fuel with
  | 0 => none
  | fuel + 1 =>
    match rxMatch s r p [] with
    | x :: _ => some (p, x.1, x.2)
    | [] => if p < s.length then firstMatchFrom s r fuel (p + 1) else none

/-- The scanning loop of `re.sub`: replace every non-overlapping match,
advancing one character after an empty match. -/
def subLoop (s : List Char) (r : Rx) (tpl : List Titem) :
    Nat → Nat → List Char
  | 0, pos => s.drop pos
  | fuel + 1, pos =>
    match firstMatchFrom s r (s.length + 1) pos with
    | none => s.drop pos
    | some (p, e, cp) =>
      let pre := (s.drop pos).take (p - pos)
      let rep := tplExpand tpl cp
      if p < e then pre ++ rep ++ subLoop s r tpl fuel e
      else if p < s.length then
        pre ++ rep ++ (s.drop p).take 1 ++ subLoop s r tpl fuel (p + 1)
      else pre ++ rep

/-- `re.sub(pattern, template, s)`: compile the pattern, parse the
template (this is where an invalid group reference or bad escape raises
`re.error`), then scan-and-replace. -/
def reSub (p tpl s : String) : Except String String := do
  let (r, ng) ← reCompile p
  let t ← parseTpl ng (tpl.toList.length + 1) tpl.toList
  pure (String.mk (subLoop s.toList r t (s.toList.length + 2) 0))

/-! ### Data model -/

/-- One migration rule, as a YAML mapping: a field that may be absent is
an `Option`.  Mirrors the dictionaries consumed by `migrator.py` and
validated by `config.py`. -/
structure Migration where
  name : Option String
  from_pattern : Option String
  to_image : Option String
  reason : Option String
  effective_date : Option String
deriving DecidableEq, Repr

/-- The merged configuration: the `migrations` key may be absent. -/
structure Config where
  migrations : Option (List Migration)
deriving DecidableEq, Repr

/-! ### `config.py`: rule-set validation -/

/-- `ConfigManager._validate_migration`: required fields checked in
order (`name`, `from_pattern`, `to_image`, `reason`), then the pattern
must compile, then `effective_date` — if the key is present — must parse
as `%Y-%m-%d`.  An error models the raised `ConfigError`. -/
def validate_migration (m : Migration) : Except String Unit :=
  match m.name with
  | none => .error "missing required field name"
  | some _ =>
    match m.from_pattern with
    | none => .error "missing required field from_pattern"
    | some p =>
      match m.to_image with
      | none => .error "missing required field to_image"
      | some _ =>
        match m.reason with
        | none => .error "missing required field reason"
        | some _ =>
          match reCompile p with
          | .error e => .error e
          | .ok _ =>
            match m.effective_date with
            | none => .ok ()
            | some s =>
              match parseDate s with
              | none => .error "invalid date format"
              | some _ => .ok ()

/-- Validate each rule in turn, stopping at the first error. -/
def validateList : List Migration → Except String Unit
  | [] => .ok ()
  | m :: rest => do
    validate_migration m
    validateList rest

/-- `ConfigManager._validate_config`: the merged configuration must
contain a `migrations` key (an empty list is fine); every rule must
validate. -/
def validate_config (cfg : Config) : Except String Unit :=
  match cfg.migrations with
  | none => .error "Configuration must contain migrations section"
  | some ms => validateList ms

/-! ### `bootc.py`: image-reference validation and the switch
collaborator -/

/-- `BootcManager.validate_image_reference`: reject the empty string,
accept anything containing `/` or `:`, otherwise require a non-empty
`strip()`. -/
def validate_image_reference (image : String) : Bool :=
  if image = "" then false
  else if strHasChar image '/' || strHasChar image ':' then true
  else decide ((pyStrip image).length > 0)

/-- Outcome of the `bootc switch` subprocess run: its return code and
its standard-error text. -/
structure SwitchResult where
  returncode : Nat
  stderr : String
deriving DecidableEq, Repr

/-- The environment of external collaborators: the current booted image
reported by `bootc status` (`none` when the query fails) and the
subprocess outcome of `bootc switch` per target. -/
structure BootcEnv where
  current_image : Option String
  switch : String → SwitchResult

/-- `BootcManager.rebase_to_image` (with `dry_run = False`): run the
switch and report success exactly when the return code is zero.  The
privilege-related branch only chooses which message is *logged*; the
returned Boolean carries no detail. -/
def rebase_to_image (env : BootcEnv) (target : String) : Bool :=
  (env.switch target).returncode = 0

/-! ### `migrator.py`: the rule engine -/

/-- `ImageMigrator._is_migration_applicable`: first the pattern test
(`re.match`, so an uncompilable pattern is an error), then the
effective-date gate.  A present, non-empty `effective_date` that parses
as `%Y-%m-%d` and is still in the future makes the rule inapplicable;
one that fails to parse is logged as a warning and the rule falls
through to applicable. -/
def is_migration_applicable (now : PyDateTime) (m : Migration)
    (current_image : String) : Except String Bool := do
  let pat := m.from_pattern.getD ""
  let mt ← reMatchB pat current_image
  if !mt then pure false
  else
    let ed := m.effective_date.getD ""
    if ed ≠ "" then
      match parseDate ed with
      | some d => if pyDtLt now ⟨d, 0⟩ then pure false else pure true
      | none => pure true
    else pure true

/-- The scan inside `ImageMigrator.find_migration`: return the first
applicable rule. -/
def findMigLoop (now : PyDateTime) (img : String) :
    List Migration → Except String (Option Migration)
  | [] => pure none
  | m :: rest => do
    let b ← is_migration_applicable now m img
    if b then pure (some m) else findMigLoop now img rest

/-- `ImageMigrator.find_migration`: `none` when the configuration has no
`migrations` key, else the first applicable rule in list order. -/
def find_migration (cfg : Config) (img : String) (now : PyDateTime) :
    Except String (Option Migration) :=
  match cfg.migrations with
  | none => pure none
  | some ms => findMigLoop now img ms

/-- The scan inside `ImageMigrator.get_pending_migrations`: keep every
pattern-matching rule; when `include_future` is false, additionally skip
rules whose effective date is in the future — and also skip rules whose
present, non-empty effective date fails to parse. -/
def pendingLoop (now : PyDateTime) (img : String) (include_future : Bool) :
    List Migration → Except String (List Migration)
  | [] => pure []
  | m :: rest => do
    let mt ← reMatchB (m.from_pattern.getD "") img
    if !mt then pendingLoop now img include_future rest
    else if include_future then
      (fun l => m :: l) <$> pendingLoop now img include_future rest
    else
      let ed := m.effective_date.getD ""
      if ed ≠ "" then
        match parseDate ed with
        | some d =>
          if pyDtLt now ⟨d, 0⟩ then pendingLoop now img include_future rest
          else (fun l => m :: l) <$> pendingLoop now img include_future rest
        | none => pendingLoop now img include_future rest
      else (fun l => m :: l) <$> pendingLoop now img include_future rest

/-- `ImageMigrator.get_pending_migrations`. -/
def get_pending_migrations (cfg : Config) (img : String)
    (include_future : Bool) (now : PyDateTime) :
    Except String (List Migration) :=
  match cfg.migrations with
  | none => pure []
  | some ms => pendingLoop now img include_future ms

/-- `ImageMigrator._resolve_target_image`: when the target template
contains a backslash and the pattern is non-empty, apply `re.sub`; a
raised `re.error` is caught and the template is returned verbatim.
Otherwise the template is returned as-is (legacy literal targets). -/
def resolve_target_image (m : Migration) (current_image : String) : String :=
  let target_template := m.to_image.getD ""
  let from_pat := m.from_pattern.getD ""
  if strHasChar target_template '\\' && from_pat ≠ "" then
    match reSub from_pat target_template current_image with
    | .ok t => t
    | .error _ => target_template
  else target_template

/-- Observable calls made to the collaborators during one
`perform_migration` invocation, in order. -/
inductive MigEvent where
  | notifyStart : String → String → String → String → MigEvent
  | rebaseCall : String → MigEvent
  | notifySuccess : String → String → MigEvent
  | notifyFailure : String → String → MigEvent
deriving DecidableEq, Repr

/-- `ImageMigrator.perform_migration`: query the current image (an
absent or empty answer fails immediately), resolve the target, validate
it, no-op successfully when it equals the current image, otherwise
notify start, invoke the switch, and notify success or failure — the
failure notification always carries the fixed text
`"Rebase operation failed"`.  The result is the returned Boolean paired
with the collaborator calls made. -/
def perform_migration (env : BootcEnv) (m : Migration) :
    Bool × List MigEvent :=
  let migration_name := m.name.getD "Unknown"
  let reason := m.reason.getD "Image migration"
  match env.current_image with
  | none => (false, [])
  | some current_image =>
    if current_image = "" then (false, [])
    else
      let target_image := resolve_target_image m current_image
      if !(validate_image_reference target_image) then (false, [])
      else if current_image = target_image then (true, [])
      else
        let pre := [MigEvent.notifyStart migration_name current_image
                      target_image reason,
                    MigEvent.rebaseCall target_image]
        if rebase_to_image env target_image then
          (true, pre ++ [MigEvent.notifySuccess migration_name target_image])
        else
          (false, pre ++ [MigEvent.notifyFailure migration_name
                            "Rebase operation failed"])

/-! ### Claim-side predicates (the spec's wording) -/

/-- The rule's pattern compiles. -/
def patternCompiles (m : Migration) : Bool :=
  (reCompile (m.from_pattern.getD "")).toOption.isSome

/-- The rule's effective date, when the field is present, parses as
`%Y-%m-%d` (load-time validation guarantees this for every rule). -/
def dateWF (m : Migration) : Bool :=
  match m.effective_date with
  | none => true
  | some s => (parseDate s).isSome

/-- The rule's pattern matches the image (spec §4.2 prefix-match
semantics). -/
def matchesImage (img : String) (m : Migration) : Bool :=
  (reMatchB (m.from_pattern.getD "") img).toOption.getD false

/-- The rule is active: its effective date is absent, or parses and is
not later than the current time. -/
def activeByDate (now : PyDateTime) (m : Migration) : Bool :=
  match m.effective_date with
  | none => true
  | some s =>
    match parseDate s with
    | some d => !(pyDtLt now ⟨d, 0⟩)
    | none => false

/-- A rule both pattern-matches the image and is active — the
acceptance test of the claims about the matcher. -/
def claimAccepts (now : PyDateTime) (img : String) (m : Migration) : Bool :=
  matchesImage img m && activeByDate now m



/-! ### Helper lemmas -/

theorem parseDate_nil : parseDate "" = none := rfl

theorem is_applicable_eq (now : PyDateTime) (m : Migration) (img : String)
    (hp : patternCompiles m = true) (hd : dateWF m = true) :
    is_migration_applicable now m img = .ok (claimAccepts now img m) := by
  obtain ⟨x, hx⟩ : ∃ x, reCompile (m.from_pattern.getD "") = .ok x := by
    unfold patternCompiles at hp
    cases h : reCompile (m.from_pattern.getD "") with
    | ok x => exact ⟨x, rfl⟩
    | error e => rw [h] at hp; simp [Except.toOption] at hp
  have hm : reMatchB (m.from_pattern.getD "") img
      = .ok (!(rxMatch img.toList x.1 0 []).isEmpty) := by
    rw [reMatchB, hx]; rfl
  have hmi : matchesImage img m = !(rxMatch img.toList x.1 0 []).isEmpty := by
    rw [matchesImage, hm]; rfl
  unfold is_migration_applicable claimAccepts
  simp only [Bind.bind, Except.bind, hm, hmi]
  cases hb : (!(rxMatch img.toList x.1 0 []).isEmpty) with
  | false => simp [pure, Except.pure]
  | true =>
    simp only [Bool.true_and, Bool.not_true, if_neg, Bool.false_eq_true,
      not_false_eq_true, Bool.true_and]
    unfold activeByDate
    unfold dateWF at hd
    cases hed : m.effective_date with
    | none => simp [pure, Except.pure]
    | some s =>
      rw [hed] at hd
      simp only [Option.isSome] at hd
      cases h2 : parseDate s with
      | none => rw [h2] at hd; simp at hd
      | some d =>
        have hs : s ≠ "" := fun h => by rw [h, parseDate_nil] at h2; cases h2
        cases hlt : pyDtLt now ⟨d, 0⟩ <;>
          simp [hs, h2, hlt, pure, Except.pure]

theorem findMigLoop_eq (now : PyDateTime) (img : String) (ms : List Migration)
    (hp : ∀ m ∈ ms, patternCompiles m = true)
    (hd : ∀ m ∈ ms, dateWF m = true) :
    findMigLoop now img ms = .ok (ms.find? (claimAccepts now img)) := by
  induction ms with
  | nil => rfl
  | cons m rest ih =>
    have h1 := is_applicable_eq now m img (hp m (by simp)) (hd m (by simp))
    rw [findMigLoop, List.find?]
    simp only [Bind.bind, Except.bind, h1]
    cases hc : claimAccepts now img m with
    | true => simp [pure, Except.pure]
    | false =>
      simp only [Bool.false_eq_true, if_false, if_neg]
      exact ih (fun x hx => hp x (by simp [hx])) (fun x hx => hd x (by simp [hx]))

theorem pendingStep (now : PyDateTime) (img : String) (m : Migration)
    (rest : List Migration)
    (hp : patternCompiles m = true) (hd : dateWF m = true) :
    pendingLoop now img false (m :: rest) =
      (if claimAccepts now img m then
        (fun l => m :: l) <$> pendingLoop now img false rest
       else pendingLoop now img false rest) := by
  obtain ⟨x, hx⟩ : ∃ x, reCompile (m.from_pattern.getD "") = .ok x := by
    unfold patternCompiles at hp
    cases h : reCompile (m.from_pattern.getD "") with
    | ok x => exact ⟨x, rfl⟩
    | error e => rw [h] at hp; simp [Except.toOption] at hp
  have hm : reMatchB (m.from_pattern.getD "") img
      = .ok (!(rxMatch img.toList x.1 0 []).isEmpty) := by
    rw [reMatchB, hx]; rfl
  have hmi : matchesImage img m = !(rxMatch img.toList x.1 0 []).isEmpty := by
    rw [matchesImage, hm]; rfl
  rw [pendingLoop]
  simp only [Bind.bind, Except.bind, hm]
  unfold claimAccepts
  rw [hmi]
  cases hb : (!(rxMatch img.toList x.1 0 []).isEmpty) with
  | false => simp
  | true =>
    simp only [Bool.true_and, Bool.not_true, Bool.false_eq_true, if_false,
      if_neg, not_false_eq_true]
    unfold activeByDate
    unfold dateWF at hd
    cases hed : m.effective_date with
    | none => simp
    | some s =>
      rw [hed] at hd
      simp only [Option.isSome] at hd
      cases h2 : parseDate s with
      | none => rw [h2] at hd; simp at hd
      | some d =>
        have hs : s ≠ "" := fun h => by rw [h, parseDate_nil] at h2; cases h2
        cases hlt : pyDtLt now ⟨d, 0⟩ <;> simp [hs, h2, hlt]

theorem pendingLoop_eq (now : PyDateTime) (img : String) (ms : List Migration)
    (hp : ∀ m ∈ ms, patternCompiles m = true)
    (hd : ∀ m ∈ ms, dateWF m = true) :
    pendingLoop now img false ms = .ok (ms.filter (claimAccepts now img)) := by
  induction ms with
  | nil => rfl
  | cons m rest ih =>
    have ih' := ih (fun x hx => hp x (by simp [hx])) (fun x hx => hd x (by simp [hx]))
    rw [pendingStep now img m rest (hp m (by simp)) (hd m (by simp))]
    rw [List.filter]
    cases hc : claimAccepts now img m <;> simp [ih', Except.map]

theorem find?_eq_head?_filter (p : Migration → Bool) (l : List Migration) :
    l.find? p = (l.filter p).head? := by
  induction l with
  | nil => rfl
  | cons a t ih =>
    cases hp : p a with
    | true => rw [List.find?_cons_of_pos _ hp, List.filter_cons_of_pos hp]; rfl
    | false =>
      rw [List.find?_cons_of_neg _ (by simp [hp]),
        List.filter_cons_of_neg (by simp [hp])]
      exact ih

theorem find_migration_eq (cfg : Config) (img : String) (now : PyDateTime)
    (hp : ∀ m ∈ cfg.migrations.getD [], patternCompiles m = true)
    (hd : ∀ m ∈ cfg.migrations.getD [], dateWF m = true) :
    find_migration cfg img now
      = .ok ((cfg.migrations.getD []).find? (claimAccepts now img)) := by
  cases hm : cfg.migrations with
  | none => rw [find_migration, hm]; rfl
  | some ms =>
    rw [find_migration, hm]
    rw [hm] at hp hd
    exact findMigLoop_eq now img ms (by simpa using hp) (by simpa using hd)

theorem get_pending_eq (cfg : Config) (img : String) (now : PyDateTime)
    (hp : ∀ m ∈ cfg.migrations.getD [], patternCompiles m = true)
    (hd : ∀ m ∈ cfg.migrations.getD [], dateWF m = true) :
    get_pending_migrations cfg img false now
      = .ok ((cfg.migrations.getD []).filter (claimAccepts now img)) := by
  cases hm : cfg.migrations with
  | none => rw [get_pending_migrations, hm]; rfl
  | some ms =>
    rw [get_pending_migrations, hm]
    rw [hm] at hp hd
    exact pendingLoop_eq now img ms (by simpa using hp) (by simpa using hd)



theorem strHasChar_iff_mem (s : String) (c : Char) :
    strHasChar s c = true ↔ c ∈ s.toList := by
  simp [strHasChar]

theorem forall_mem_dropWhile_iff (p : Char → Bool) (l : List Char) :
    (∀ x ∈ l.dropWhile p, p x = true) ↔ (∀ x ∈ l, p x = true) := by
  induction l with
  | nil => simp
  | cons a t ih =>
    rw [List.dropWhile_cons]
    cases hp : p a with
    | true => simp [hp, ih]
    | false => simp [hp]

theorem pyStrip_pos_iff (s : String) :
    0 < (pyStrip s).length ↔ s.toList.any (fun c => !pyIsSpace c) = true := by
  have hlen : (pyStrip s).length
      = (((s.toList.dropWhile pyIsSpace).reverse.dropWhile pyIsSpace).reverse).length := rfl
  rw [hlen, List.length_pos, ne_eq, List.reverse_eq_nil_iff,
    List.dropWhile_eq_nil_iff]
  simp only [List.mem_reverse]
  rw [forall_mem_dropWhile_iff]
  simp [List.any_eq_true]



/-- Claim C9 (amended): validate_image_reference accepts a string
exactly when it contains at least one non-whitespace character
(equivalently, a non-empty strip()); the empty string and all-whitespace
strings are rejected, everything else — including anything containing /
or : — is accepted. -/
theorem validate_image_accepts_iff_nonspace (s : String) :
    validate_image_reference s = true ↔
      s.toList.any (fun c => !pyIsSpace c) = true := by
  unfold validate_image_reference
  by_cases h0 : s = ""
  · subst h0; simp
  · rw [if_neg h0]
    by_cases hsl : (strHasChar s '/' || strHasChar s ':') = true
    · rw [if_pos hsl]
      constructor
      · intro _
        rcases Bool.or_eq_true_iff.mp hsl with h | h
        · exact List.any_eq_true.mpr
            ⟨'/', (strHasChar_iff_mem s '/').mp h, rfl⟩
        · exact List.any_eq_true.mpr
            ⟨':', (strHasChar_iff_mem s ':').mp h, rfl⟩
      · intro _; rfl
    · rw [if_neg hsl]
      rw [decide_eq_true_iff]
      exact pyStrip_pos_iff s



/-- A rule passes load-time validation: all four required fields exist,
the pattern compiles, and the effective date — when present — parses. -/
def migrationOK (m : Migration) : Prop :=
  m.name.isSome = true ∧ m.from_pattern.isSome = true ∧
  m.to_image.isSome = true ∧ m.reason.isSome = true ∧
  (∃ x, reCompile (m.from_pattern.getD "") = .ok x) ∧
  (m.effective_date = none ∨
    ∃ s d, m.effective_date = some s ∧ parseDate s = some d)

theorem validate_migration_ok_iff (m : Migration) :
    validate_migration m = .ok () ↔ migrationOK m := by
  unfold validate_migration migrationOK
  cases hn : m.name with
  | none => simp
  | some nm =>
    cases hf : m.from_pattern with
    | none => simp
    | some p =>
      cases ht : m.to_image with
      | none => simp
      | some ti =>
        cases hr : m.reason with
        | none => simp
        | some rs =>
          cases hc : reCompile p with
          | error e => simp [hc]
          | ok x =>
            cases hed : m.effective_date with
            | none => simp [hc]
            | some s =>
              cases hpd : parseDate s with
              | none => simp [hc, hpd]
              | some d => simp [hc, hpd]

theorem validateList_ok_iff (ms : List Migration) :
    validateList ms = .ok () ↔ ∀ m ∈ ms, migrationOK m := by
  induction ms with
  | nil => simp [validateList]
  | cons m rest ih =>
    rw [validateList]
    simp only [Bind.bind, Except.bind]
    cases hv : validate_migration m with
    | error e =>
      constructor
      · intro h; cases h
      · intro h
        have h2 := (validate_migration_ok_iff m).mpr (h m (by simp))
        rw [hv] at h2; cases h2
    | ok u =>
      cases u
      rw [ih]
      constructor
      · intro h x hx
        rcases List.mem_cons.mp hx with he | hx'
        · subst he; exact (validate_migration_ok_iff x).mp hv
        · exact h x hx'
      · intro h x hx
        exact h x (List.mem_cons_of_mem _ hx)



/-! ### Concrete instances used by witnesses and counterexamples -/

/-- A test clock: 2026-10-12, midday. -/
def nowT : PyDateTime := ⟨⟨2026, 10, 12⟩, 43200⟩

def c1ruleInactive : Migration :=
  ⟨some "inactive first", some "old", some "a/b:1", some "eol", some "2099-01-01"⟩

def c1ruleActive : Migration :=
  ⟨some "active second", some "old", some "c/d:2", some "eol", some "2020-01-01"⟩

def c1cfg : Config := ⟨some [c1ruleInactive, c1ruleActive]⟩

/-- Claim C1: find_migration returns the first rule in list order that
both pattern-matches the image and is active; an inactive matching rule
is skipped and the scan continues, and the result is empty only when no
rule both matches and is active.  Stated as: under the load-time
validation invariant (patterns compile, effective dates parse),
find_migration is exactly the first-satisfying search for
"pattern-matches and is active". -/
theorem find_migration_returns_first_active (cfg : Config) (img : String)
    (now : PyDateTime)
    (hp : ∀ m ∈ cfg.migrations.getD [], patternCompiles m = true)
    (hd : ∀ m ∈ cfg.migrations.getD [], dateWF m = true) :
    find_migration cfg img now
      = .ok ((cfg.migrations.getD []).find? (claimAccepts now img)) :=
  find_migration_eq cfg img now hp hd

/-- Witness for C1: with an inactive matching rule before an active
matching one, the scan skips the first and returns the second. -/
theorem find_migration_returns_first_active_witness :
    find_migration c1cfg "old/image:v1" nowT
      = .ok ((c1cfg.migrations.getD []).find? (claimAccepts nowT "old/image:v1")) ∧
    (c1cfg.migrations.getD []).find? (claimAccepts nowT "old/image:v1")
      = some c1ruleActive :=
  ⟨find_migration_returns_first_active c1cfg "old/image:v1" nowT
      (by decide) (by decide),
   by decide⟩



def c2ruleBadDate : Migration :=
  ⟨some "bad date", some "old", some "new/image:2", some "eol", some "not-a-date"⟩

def c2cfg : Config := ⟨some [c2ruleBadDate]⟩

/-- Counterexample to claim C2: for a matching rule whose effective_date
does not parse, find_migration accepts it (warning-and-continue) while
get_pending_migrations with include_future = false skips it, so
find_migration is not the head of the pending list — the per-rule logic
of the two queries is not identical. -/
theorem find_vs_pending_counterexample :
    find_migration c2cfg "old/image:v1" nowT = .ok (some c2ruleBadDate) ∧
    get_pending_migrations c2cfg "old/image:v1" false nowT = .ok [] ∧
    find_migration c2cfg "old/image:v1" nowT ≠
      Except.map List.head?
        (get_pending_migrations c2cfg "old/image:v1" false nowT) := by
  have h1 : find_migration c2cfg "old/image:v1" nowT
      = .ok (some c2ruleBadDate) := rfl
  have h2 : get_pending_migrations c2cfg "old/image:v1" false nowT
      = .ok [] := rfl
  refine ⟨h1, h2, ?_⟩
  rw [h1, h2]
  simp [Except.map]

/-- Claim C2 (amended): the per-rule logic of find_migration and of
get_pending_migrations with include_future = false coincides for every
rule whose effective_date, when present, parses (which load-time
validation guarantees); on such rule lists the pending list is exactly
the accepted sublist and find_migration is its first element.  (For a
matching rule with an unparseable effective_date the two differ:
find_migration accepts it, get_pending_migrations skips it.) -/
theorem find_is_head_of_pending (cfg : Config) (img : String)
    (now : PyDateTime)
    (hp : ∀ m ∈ cfg.migrations.getD [], patternCompiles m = true)
    (hd : ∀ m ∈ cfg.migrations.getD [], dateWF m = true) :
    get_pending_migrations cfg img false now
      = .ok ((cfg.migrations.getD []).filter (claimAccepts now img)) ∧
    find_migration cfg img now
      = Except.map List.head? (get_pending_migrations cfg img false now) := by
  have hpend := get_pending_eq cfg img now hp hd
  have hfind := find_migration_eq cfg img now hp hd
  refine ⟨hpend, ?_⟩
  rw [hpend, hfind, find?_eq_head?_filter]
  rfl

/-- Witness for the amended C2 at a concrete validated rule list. -/
theorem find_is_head_of_pending_witness :
    get_pending_migrations c1cfg "old/image:v1" false nowT
      = .ok ((c1cfg.migrations.getD []).filter (claimAccepts nowT "old/image:v1")) ∧
    find_migration c1cfg "old/image:v1" nowT
      = Except.map List.head?
          (get_pending_migrations c1cfg "old/image:v1" false nowT) :=
  find_is_head_of_pending c1cfg "old/image:v1" nowT (by decide) (by decide)

/-- Claim C10: a rule whose pattern matches and whose effective_date is
present but unparseable is treated as applicable (the activation check is
skipped after a logged warning), and find_migration can select it. -/
theorem invalid_date_rule_applicable (now : PyDateTime) (m : Migration)
    (img : String) (s : String)
    (hm : reMatchB (m.from_pattern.getD "") img = .ok true)
    (hed : m.effective_date = some s) (hs : s ≠ "")
    (hbad : parseDate s = none) :
    is_migration_applicable now m img = .ok true ∧
    find_migration ⟨some [m]⟩ img now = .ok (some m) := by
  have h1 : is_migration_applicable now m img = .ok true := by
    unfold is_migration_applicable
    simp only [Bind.bind, Except.bind, hm, hed, Option.getD_some, hbad]
    simp [hs, pure, Except.pure]
  refine ⟨h1, ?_⟩
  show findMigLoop now img [m] = .ok (some m)
  simp only [findMigLoop, Bind.bind, Except.bind, h1]
  simp [pure, Except.pure]

def c10rule : Migration :=
  ⟨some "corrupted date", some "^ghcr", some "x/y:1", some "eol",
   some "2026-99-99"⟩

/-- Witness for C10. -/
theorem invalid_date_rule_applicable_witness :
    is_migration_applicable nowT c10rule "ghcr.io/a/b:1" = .ok true ∧
    find_migration ⟨some [c10rule]⟩ "ghcr.io/a/b:1" nowT = .ok (some c10rule) :=
  invalid_date_rule_applicable nowT c10rule "ghcr.io/a/b:1" "2026-99-99"
    rfl rfl (by decide) (by decide)



/-- Claim C3: target resolution never propagates an error — when the
template contains a backslash and the substitution fails, the template
is returned verbatim.  (Totality is inherent: resolve_target_image is a
function into String; this theorem settles the fallback value on the
failure branch.) -/
theorem resolve_falls_back_on_sub_error (m : Migration) (img : String)
    (e : String)
    (hb : strHasChar (m.to_image.getD "") '\\' = true)
    (hfail : reSub (m.from_pattern.getD "") (m.to_image.getD "") img
      = .error e) :
    resolve_target_image m img = m.to_image.getD "" := by
  unfold resolve_target_image
  by_cases hp : (m.from_pattern.getD "") = ""
  · simp [hp]
  · simp [hb, hp, hfail]

def c3rule : Migration :=
  ⟨some "bad template", some "x", some "a\\9b", some "r", none⟩

/-- Witness for C3: a template referencing group 9 of a pattern with no
groups makes re.sub raise, and resolution returns the template text. -/
theorem resolve_falls_back_on_sub_error_witness :
    strHasChar (c3rule.to_image.getD "") '\\' = true ∧
    reSub (c3rule.from_pattern.getD "") (c3rule.to_image.getD "") "xyz"
      = .error "invalid group reference" ∧
    resolve_target_image c3rule "xyz" = "a\\9b" :=
  ⟨rfl, rfl,
   resolve_falls_back_on_sub_error c3rule "xyz" "invalid group reference"
     rfl rfl⟩

/-- Claim C4: a target template without a backslash is returned
unchanged, whatever the current image is. -/
theorem resolve_literal_unchanged (m : Migration) (img : String)
    (hb : strHasChar (m.to_image.getD "") '\\' = false) :
    resolve_target_image m img = m.to_image.getD "" := by
  unfold resolve_target_image
  simp [hb]

def c4rule : Migration :=
  ⟨some "literal", some "old", some "new/image:latest", some "eol", none⟩

/-- Witness for C4 at two different current images. -/
theorem resolve_literal_unchanged_witness :
    resolve_target_image c4rule "old/image:v1" = "new/image:latest" ∧
    resolve_target_image c4rule "completely/else:9" = "new/image:latest" :=
  ⟨resolve_literal_unchanged c4rule "old/image:v1" rfl,
   resolve_literal_unchanged c4rule "completely/else:9" rfl⟩

def auroraAsusRule : Migration :=
  ⟨some "Aurora ASUS to HWE",
   some "^ghcr.io/ublue-os/aurora-asus(-nvidia(-open)?)?:(.*)$",
   some "ghcr.io/ublue-os/aurora-hwe\\1:\\3",
   some "ASUS images EOL", none⟩

/-- Claim C5: the documented substitution example — back-references \1
and \3 are filled from the capture groups of the matched current
image. -/
theorem resolve_aurora_substitution :
    resolve_target_image auroraAsusRule
        "ghcr.io/ublue-os/aurora-asus-nvidia:latest"
      = "ghcr.io/ublue-os/aurora-hwe-nvidia:latest" := by decide



/-- Claim C6: when the resolved target equals the (validated) current
image, perform_migration reports success and makes no collaborator
calls: no rebase invocation and no start/success/failure
notifications. -/
theorem perform_migration_noop (env : BootcEnv) (m : Migration)
    (cur : String)
    (hc : env.current_image = some cur)
    (hres : resolve_target_image m cur = cur)
    (hv : validate_image_reference cur = true) :
    perform_migration env m = (true, []) := by
  have hne : cur ≠ "" := by
    intro h; rw [h] at hv
    simp [validate_image_reference] at hv
  unfold perform_migration
  rw [hc]
  simp [hne, hres, hv]

def c6env : BootcEnv := ⟨some "new/image:latest", fun _ => ⟨1, "must not be called"⟩⟩

/-- Witness for C6: already on the literal target; success with an empty
call trace even though the switch collaborator would fail if invoked. -/
theorem perform_migration_noop_witness :
    perform_migration c6env c4rule = (true, []) :=
  perform_migration_noop c6env c4rule "new/image:latest" rfl rfl rfl

/-- Claim C8 (amended): when the switch collaborator's rebase reports
failure, the engine notifies failure with the fixed message
"Rebase operation failed" — the collaborator's error detail (its stderr,
including any privilege diagnosis) is only logged inside the
collaborator, not carried in the notification — and returns false. -/
theorem perform_migration_rebase_failure (env : BootcEnv) (m : Migration)
    (cur : String)
    (hc : env.current_image = some cur) (hne : cur ≠ "")
    (hv : validate_image_reference (resolve_target_image m cur) = true)
    (hdiff : cur ≠ resolve_target_image m cur)
    (hfail : rebase_to_image env (resolve_target_image m cur) = false) :
    perform_migration env m =
      (false,
       [MigEvent.notifyStart (m.name.getD "Unknown") cur
          (resolve_target_image m cur) (m.reason.getD "Image migration"),
        MigEvent.rebaseCall (resolve_target_image m cur),
        MigEvent.notifyFailure (m.name.getD "Unknown")
          "Rebase operation failed"]) := by
  unfold perform_migration
  rw [hc]
  simp [hne, hv, hdiff, hfail]

def c8env : BootcEnv :=
  ⟨some "old/image:v1", fun _ => ⟨1, "bootc requires root user privileges"⟩⟩

/-- Witness for the amended C8. -/
theorem perform_migration_rebase_failure_witness :
    perform_migration c8env c4rule =
      (false,
       [MigEvent.notifyStart "literal" "old/image:v1" "new/image:latest" "eol",
        MigEvent.rebaseCall "new/image:latest",
        MigEvent.notifyFailure "literal" "Rebase operation failed"]) :=
  perform_migration_rebase_failure c8env c4rule "old/image:v1"
    rfl (by decide) rfl (by decide) rfl

/-- Counterexample to claim C8 as stated: at a concrete failing switch
whose stderr is a privilege error, the failure notification text is the
fixed string, which neither contains the collaborator's stderr nor any
privilege-related marker — it does not carry the collaborator's error
detail. -/
theorem failure_notification_lacks_detail :
    perform_migration c8env c4rule =
      (false,
       [MigEvent.notifyStart "literal" "old/image:v1" "new/image:latest" "eol",
        MigEvent.rebaseCall "new/image:latest",
        MigEvent.notifyFailure "literal" "Rebase operation failed"]) ∧
    (c8env.switch "new/image:latest").stderr
      = "bootc requires root user privileges" ∧
    strHasSeq "Rebase operation failed"
      ((c8env.switch "new/image:latest").stderr) = false ∧
    strHasSeq "Rebase operation failed" "root" = false ∧
    strHasSeq "Rebase operation failed" "privilege" = false :=
  ⟨rfl, rfl, rfl, rfl, rfl⟩



/-- Claim C7: rule-set construction succeeds exactly when the merged
configuration has a migrations key (an empty list is accepted) and every
rule has all four required fields, a compilable pattern, and — when the
effective_date key is present — a parseable date; equivalently it fails
with ConfigError exactly when one of those conditions is violated. -/
theorem validate_config_ok_iff (cfg : Config) :
    validate_config cfg = .ok () ↔
      ∃ ms, cfg.migrations = some ms ∧ ∀ m ∈ ms, migrationOK m := by
  unfold validate_config
  cases hm : cfg.migrations with
  | none => simp
  | some ms => simp [validateList_ok_iff]

/-- Counterexample to claim C9: the one-space string is non-empty yet
rejected by validate_image_reference (its strip() is empty and it
contains neither / nor :). -/
theorem validate_image_blank_counterexample :
    validate_image_reference " " = false ∧ " " ≠ "" := by
  refine ⟨rfl, ?_⟩
  decide


end EolRebaser
